import Mathlib

/-!
Shallow embedding of the session-orchestration / live-preview core:
the Process Supervisor readiness probe (src/DEV_SERVER_FIXES.md),
the workspace scanner `scan_workspace_pages` (src/docs/procedures.md),
the permission normalization `chmod -R a+rX` (src/unnamed/part_000),
the client channel hook `useAgentSession` (src/unnamed/part_002),
the chat page event-processing effect (src/appandrunning/app/chat/[id]/page.tsx),
and the session manager creation dedup (src/WEBSOCKET_IMPROVEMENTS.md).

Definitions come first, then the theorems about them.
-/

namespace Spec2Proof

/-! ## Process Supervisor readiness probe

From src/DEV_SERVER_FIXES.md, "Smarter Health Check" / "New Logic (Correct)":
each probe issues `urlopen("http://localhost:3000/")`; its outcome is either a
normal HTTP response, an `HTTPError` (an application level error response such
as 404 or 403, raised by urlopen but proving the server answered), a
`URLError` (connection refused / unreachable), or some other exception. -/

inductive ProbeOutcome where
  | response (code : Nat)
  | httpError (code : Nat)
  | urlError
  | otherError
deriving DecidableEq, Repr

/-- Whether the probe outcome carries an HTTP response from the expected port
(a normal response or an application-level error response such as 404). -/
def receivedHttpResponse : ProbeOutcome → Bool
  | .response _ => true
  | .httpError _ => true
  | .urlError => false
  | .otherError => false

/-- One health-check attempt, from src/DEV_SERVER_FIXES.md lines 37-46:
`urlopen` returning means True; `HTTPError` means True (server IS running);
`URLError` means False (connection refused = not running); per the
"New Logic (Correct)" table, other exceptions also fail the attempt. -/
def healthCheck : ProbeOutcome → Bool
  | .response _ => true
  | .httpError _ => true
  | .urlError => false
  | .otherError => false

inductive ReadyResult where
  | ready
  | timedOut
deriving DecidableEq, Repr

/-- The probe loop: a bounded sequence of attempts (the fixed interval between
attempts is irrelevant to the result); the list holds the outcome of each
attempt up to the attempt budget (30 in the source logs, "attempt 1/30").
The loop stops at the first passing health check; exhausting the list of
attempts with no passing check reports `timedOut`. -/
def awaitReady : List ProbeOutcome → ReadyResult
  | [] => .timedOut
  | p :: rest => if healthCheck p then .ready else awaitReady rest

/-! ## Client Channel Protocol: reconnect backoff

From src/unnamed/part_002 (`useAgentSession.ts`, the hook version with
`sendPrompt`): `ws.onclose` increments `reconnectAttemptsRef.current` and
schedules a reconnect after
`Math.min(1000 * Math.pow(2, Math.min(reconnectAttemptsRef.current - 1, 4)), 30000)`
milliseconds; `ws.onopen` sets `reconnectAttemptsRef.current = 0`. -/

/-- Delay (ms) computed by `ws.onclose` for a given value of the attempt
counter after incrementing: `Math.min(1000 * 2 ** Math.min(a - 1, 4), 30000)`. -/
def backoffDelay (attempts : Nat) : Nat :=
  min (1000 * 2 ^ (min (attempts - 1) 4)) 30000

/-- The refs the backoff logic reads/writes (`reconnectAttemptsRef`). -/
structure ConnRefs where
  reconnectAttempts : Nat
deriving DecidableEq, Repr

/-- `ws.onopen` handler: resets the retry counter on successful connection. -/
def wsOnOpen (_ : ConnRefs) : ConnRefs :=
  { reconnectAttempts := 0 }

/-- `ws.onclose` handler: increments the counter and returns the computed
delay before the scheduled reconnection attempt. -/
def wsOnClose (s : ConnRefs) : ConnRefs × Nat :=
  let a := s.reconnectAttempts + 1
  ({ reconnectAttempts := a }, backoffDelay a)

/-- State after `n` consecutive unexpected disconnects (no successful
reconnection in between). -/
def closeN : Nat → ConnRefs → ConnRefs
  | 0, s => s
  | n + 1, s => (wsOnClose (closeN n s)).1

/-- Modelled from the spec's words (for comparison with the source's
`backoffDelay`): "capped exponential backoff (e.g. base 1s, doubling, cap
30s)" — the delay before the n-th reconnection attempt starts at 1 second,
doubles on each successive attempt, capped at 30 seconds. -/
def specBackoffDelay (n : Nat) : Nat :=
  min (1000 * 2 ^ (n - 1)) 30000

/-! ## Workspace Scanner

From src/docs/procedures.md, `scan_workspace_pages(session_id, workspace)`.
Strings are modelled as Lean strings; the per-file regex layer is modelled by
its results: `titleGroup` is group(1) of
`re.search(r'<title[^>]*>(.*?)</title>', content, IGNORECASE | DOTALL)` when
that search matched, and `idMatches` holds, in document order, the groups of
`re.finditer(r'<(h[1-6]|section|article|nav|aside|div)[^>]*\sid=["\x27]([^"\x27]+)["\x27][^>]*>(.*?)</\1>', ...)`.
The post-processing of those groups (tag stripping, trimming, whitespace
collapsing, truncation, fallback, the 20-section cap, globbing, sorting and
totals) is embedded directly from the Python source. -/

/-- Python `str.strip()` / `\s` whitespace (ASCII): space, tab, newline,
carriage return, vertical tab, form feed. -/
def isPySpace (c : Char) : Bool :=
  c = ' ' || c = '\t' || c = '\n' || c = '\r' || c = '\x0b' || c = '\x0c'

/-- Python `str.strip()`: drop leading and trailing whitespace. -/
def pyStrip (s : List Char) : List Char :=
  ((s.dropWhile isPySpace).reverse.dropWhile isPySpace).reverse

/-- Worker for `re.sub(r'\s+', ' ', text)`: the flag records whether the
previous character was part of a whitespace run already replaced. -/
def collapseWsAux : Bool → List Char → List Char
  | _, [] => []
  | prevSpace, c :: rest =>
    if isPySpace c then
      if prevSpace then collapseWsAux true rest
      else ' ' :: collapseWsAux true rest
    else c :: collapseWsAux false rest

/-- `re.sub(r'\s+', ' ', text)`: replace each maximal whitespace run by one
space. -/
def collapseWs (s : List Char) : List Char :=
  collapseWsAux false s

/-- After an opening `<` and one non-`>` character already consumed, skip to
just past the first `>` (the rest of `[^>]+>`). -/
def dropTagGo : List Char → Option (List Char)
  | [] => none
  | c :: rest => if c = '>' then some rest else dropTagGo rest

/-- Attempt to match `[^>]+>` (at least one non-`>` character, then `>`)
right after a `<`; `none` when the regex cannot match at this `<`. -/
def dropTag : List Char → Option (List Char)
  | [] => none
  | c :: rest => if c = '>' then none else dropTagGo rest

/-- Worker for `re.sub(r'<[^>]+>', '', content)`, structurally recursive on a
fuel argument so that it evaluates by reduction; each step consumes at least
one character (`dropTag` strictly shrinks the list, see `dropTag_length`), so
fuel equal to the input length is never exhausted. -/
def stripTagsGo : Nat → List Char → List Char
  | 0, s => s
  | _ + 1, [] => []
  | fuel + 1, c :: rest =>
    if c = '<' then
      match dropTag rest with
      | some rest' => stripTagsGo fuel rest'
      | none => c :: stripTagsGo fuel rest
    else c :: stripTagsGo fuel rest

/-- `re.sub(r'<[^>]+>', '', content)`: remove every leftmost non-overlapping
match of `<[^>]+>`; a `<` at which the pattern cannot match is kept. -/
def stripTags (s : List Char) : List Char :=
  stripTagsGo s.length s

/-- `text_content` as computed for one section match: strip tags from the
inner content, `strip()`, then collapse whitespace runs. -/
def displayText (inner : List Char) : List Char :=
  collapseWs (pyStrip (stripTags inner))

/-- One `re.finditer` match of the section id pattern: group(1) the element
type, group(2) the id attribute value, group(3) the inner content. -/
structure RawMatch where
  tag : String
  id : String
  inner : String
deriving DecidableEq, Repr

/-- One entry of a page's `sections` list (the `PageSection` shape of
src/appandrunning/app/lib/api-client.ts). -/
structure PageSection where
  id : String
  name : String
  element : String
deriving DecidableEq, Repr

/-- Build one section dict from a match: truncate the text to 50 characters
plus `'...'` when longer than 50, then use it as the name when non-empty,
falling back to the raw id. -/
def mkSection (m : RawMatch) : PageSection :=
  let t := displayText m.inner.data
  let t := if t.length > 50 then t.take 50 ++ ("...".data) else t
  { id := m.id, name := if t ≠ [] then ⟨t⟩ else m.id, element := m.tag }

/-- The `for match in re.finditer(...)` loop: append a section per match and
`break` as soon as the accumulated list reaches 20 entries. -/
def sectionsLoop : List RawMatch → List PageSection → List PageSection
  | [], acc => acc
  | m :: rest, acc =>
    if (acc ++ [mkSection m]).length ≥ 20 then acc ++ [mkSection m]
    else sectionsLoop rest (acc ++ [mkSection m])

/-- Sections of one page: the loop run from the empty accumulator. -/
def buildSections (ms : List RawMatch) : List PageSection :=
  sectionsLoop ms []

/-- Result of the per-file regex layer over the file's decoded content. -/
structure ParsedHtml where
  titleGroup : Option String
  idMatches : List RawMatch
deriving DecidableEq, Repr

instance {ε α : Type} [DecidableEq ε] [DecidableEq α] : DecidableEq (Except ε α) := fun a b =>
  match a, b with
  | .error x, .error y =>
    if h : x = y then isTrue (h ▸ rfl) else isFalse (fun hh => h (Except.error.inj hh))
  | .error _, .ok _ => isFalse (fun hh => Except.noConfusion hh)
  | .ok _, .error _ => isFalse (fun hh => Except.noConfusion hh)
  | .ok x, .ok y =>
    if h : x = y then isTrue (h ▸ rfl) else isFalse (fun hh => h (Except.ok.inj hh))

/-- One HTML file of the file-tree snapshot: its path relative to the
workspace root, whether it sits directly in the root (and is hence matched by
the non-recursive `{workspace}/*.html` glob as well as the recursive one),
and the outcome of opening/reading/parsing it (`Except.error` models an
exception raised while processing this file). -/
structure HtmlFile where
  relPath : String
  atRoot : Bool
  parse : Except String ParsedHtml
deriving DecidableEq, Repr

/-- One entry of the `pages` list (the `PageInfo` shape of api-client.ts). -/
structure PageInfo where
  path : String
  title : String
  url : String
  sections : List PageSection
deriving DecidableEq, Repr

/-- Build one page dict from a successfully processed file: title is the
stripped title group when the title regex matched, else the relative path;
the url is `'/' + rel_path.replace('\\', '/')`, with `/index.html`
rewritten to `/`. -/
def mkPage (f : HtmlFile) (c : ParsedHtml) : PageInfo :=
  let title : String := match c.titleGroup with
    | some t => ⟨pyStrip t.data⟩
    | none => f.relPath
  let urlPath : String :=
    ⟨'/' :: f.relPath.data.map (fun ch => if ch = '\\' then '/' else ch)⟩
  let urlPath := if urlPath = "/index.html" then "/" else urlPath
  { path := f.relPath, title := title, url := urlPath,
    sections := buildSections c.idMatches }

/-- Per-file processing result: `none` when the file raised (the
`except Exception` arm logs and skips it). -/
def processFile (f : HtmlFile) : Option PageInfo :=
  match f.parse with
  | .error _ => none
  | .ok c => some (mkPage f c)

/-- Whether processing this file runs to completion (no exception). -/
def parseOk (f : HtmlFile) : Bool :=
  match f.parse with
  | .ok _ => true
  | .error _ => false

/-- Number of sections the page built from this file carries (0 for a file
that raised and is skipped). -/
def pageSectionCount (f : HtmlFile) : Nat :=
  match f.parse with
  | .ok c => (buildSections c.idMatches).length
  | .error _ => 0

/-- The `for html_file in html_files:` loop with its per-file `try/except`:
a file that raises is logged and skipped, the loop continues. -/
def scanLoop : List HtmlFile → List PageInfo → List PageInfo
  | [], acc => acc
  | f :: rest, acc =>
    match f.parse with
    | .error _ => scanLoop rest acc
    | .ok c => scanLoop rest (acc ++ [mkPage f c])

/-- `glob.glob(f"{workspace}/*.html") + glob.glob(f"{workspace}/**/*.html",
recursive=True)`: the snapshot `ws` lists every HTML file under the root in
enumeration order; the non-recursive glob returns the root-level ones, and
the recursive `**` glob (which also matches zero directories) returns all of
them again. -/
def htmlFiles (ws : List HtmlFile) : List HtmlFile :=
  ws.filter (·.atRoot) ++ ws

/-- First component of the Python sort key
`lambda p: (p['path'] != 'index.html', p['path'])`. -/
def notIndex (p : PageInfo) : Bool :=
  p.path != "index.html"

/-- The sort order `key=lambda p: (p['path'] != 'index.html', p['path'])`:
lexicographic on the (Bool, String) key, with False < True and strings
compared lexicographically. -/
def pageLe (p q : PageInfo) : Prop :=
  (notIndex p = false ∧ notIndex q = true) ∨ (notIndex p = notIndex q ∧ p.path ≤ q.path)

instance : DecidableRel pageLe := fun p q => by
  unfold pageLe
  infer_instance

instance : IsTotal PageInfo pageLe where
  total p q := by
    unfold pageLe
    cases hp : notIndex p <;> cases hq : notIndex q
    · rcases le_total p.path q.path with h | h
      · exact Or.inl (Or.inr ⟨rfl, h⟩)
      · exact Or.inr (Or.inr ⟨rfl, h⟩)
    · exact Or.inl (Or.inl ⟨rfl, rfl⟩)
    · exact Or.inr (Or.inl ⟨rfl, rfl⟩)
    · rcases le_total p.path q.path with h | h
      · exact Or.inl (Or.inr ⟨rfl, h⟩)
      · exact Or.inr (Or.inr ⟨rfl, h⟩)

instance : IsTrans PageInfo pageLe where
  trans a b c hab hbc := by
    rcases hab with ⟨ha, hb⟩ | ⟨hab, hp⟩
    · rcases hbc with ⟨hb2, hc⟩ | ⟨hbc2, hp2⟩
      · rw [hb] at hb2; exact absurd hb2 (by simp)
      · exact Or.inl ⟨ha, by rw [← hbc2]; exact hb⟩
    · rcases hbc with ⟨hb2, hc⟩ | ⟨hbc2, hp2⟩
      · exact Or.inl ⟨by rw [hab]; exact hb2, hc⟩
      · exact Or.inr ⟨hab.trans hbc2, le_trans hp hp2⟩

/-- `pages.sort(key=lambda p: (p['path'] != 'index.html', p['path']))`:
a comparison sort consistent with the key order. -/
def sortPages (pages : List PageInfo) : List PageInfo :=
  List.insertionSort pageLe pages

/-- The dict returned by `scan_workspace_pages`. -/
structure PageStructure where
  pages : List PageInfo
  total_pages : Nat
  total_sections : Nat
deriving DecidableEq, Repr

/-- `scan_workspace_pages`: glob both patterns, process each file under a
per-file try/except, sort, and return pages with the totals. -/
def scan_workspace_pages (ws : List HtmlFile) : PageStructure :=
  let pages := sortPages (scanLoop (htmlFiles ws) [])
  { pages := pages,
    total_pages := pages.length,
    total_sections := (pages.map (fun p => p.sections.length)).sum }

/-! ## Permission normalization

From src/unnamed/part_000, "Why `chmod -R a+rX` Works": the fix command is
`chmod -R a+rX {workspace}`; `a` is all three roles (owner, group, others),
`+r` always adds read, and capital `X` adds execute only if the entry is a
directory or already has execute for someone. -/

/-- One entry's permission bits (the nine rwx bits of owner/group/others). -/
structure FilePerm where
  ownerR : Bool
  ownerW : Bool
  ownerX : Bool
  groupR : Bool
  groupW : Bool
  groupX : Bool
  otherR : Bool
  otherW : Bool
  otherX : Bool
deriving DecidableEq, Repr

/-- Whether the entry "already has execute for someone" (any execute bit). -/
def hasAnyExec (p : FilePerm) : Bool :=
  p.ownerX || p.groupX || p.otherX

/-- `a+rX` on one entry: add read for all roles; add execute for all roles
when the entry is a directory or already has execute for someone (capital X);
write bits are untouched. -/
def applyRX (isDir : Bool) (p : FilePerm) : FilePerm :=
  let x := isDir || hasAnyExec p
  { ownerR := true, ownerW := p.ownerW, ownerX := p.ownerX || x,
    groupR := true, groupW := p.groupW, groupX := p.groupX || x,
    otherR := true, otherW := p.otherW, otherX := p.otherX || x }

mutual

/-- A file tree: regular files and directories, each carrying its bits. -/
inductive FsTree where
  | file (perms : FilePerm)
  | dir (perms : FilePerm) (children : Forest)

/-- The children of a directory. -/
inductive Forest where
  | nil
  | cons (t : FsTree) (rest : Forest)

end

mutual

/-- `chmod -R a+rX` on one tree node: apply `a+rX` to the node (X fires on
directories) and recurse into children. -/
def chmodRX : FsTree → FsTree
  | .file p => .file (applyRX false p)
  | .dir p cs => .dir (applyRX true p) (chmodRXForest cs)

/-- `chmod -R a+rX` over a directory's children. -/
def chmodRXForest : Forest → Forest
  | .nil => .nil
  | .cons t rest => .cons (chmodRX t) (chmodRXForest rest)

end

/-! ## Session Manager creation dedup

Modelled from the spec: the `/api/chat` handler (API.py) is not under src/;
only src/WEBSOCKET_IMPROVEMENTS.md describes it ("Check if session is already
in `initializing` or `running` state; Return existing session info instead of
spawning duplicate"), and the spec (§4.1, §5) requires the
existence-check-and-create to be atomic with respect to concurrent callers
for the same id. Each `createOrAttach` is therefore one atomic step on the
shared registry; an arbitrary interleaving of N concurrent requests is an
arbitrary sequence of those steps. -/

/-- Session phases during/after provisioning. -/
inductive SessionPhase where
  | initializing
  | running
deriving DecidableEq, Repr

/-- The shared registry plus a log of backing workers spawned (one entry per
content-producer invocation / supervisor instance). -/
structure ManagerState where
  sessions : List (String × SessionPhase)
  spawns : List String
deriving DecidableEq, Repr

/-- Registry lookup by session id. -/
def lookupSession (st : ManagerState) (sid : String) : Option SessionPhase :=
  match st.sessions.find? (fun kv => kv.1 == sid) with
  | some kv => some kv.2
  | none => none

/-- Modelled from the spec: one atomic `createOrAttach` step. If the session
id already exists (initializing or running), return the existing session's id
and spawn nothing; otherwise register the session and spawn its backing
worker. Returns the session id handed back to the caller. -/
def createOrAttach (st : ManagerState) (sid : String) : ManagerState × String :=
  match lookupSession st sid with
  | some _ => (st, sid)
  | none =>
    ({ sessions := (sid, .initializing) :: st.sessions,
       spawns := st.spawns ++ [sid] }, sid)

/-- N concurrent `createOrAttach` requests with the same id: an arbitrary
interleaving of the N atomic steps, collecting each caller's result. -/
def runRequests : Nat → ManagerState → String → ManagerState × List String
  | 0, st, _ => (st, [])
  | n + 1, st, sid =>
    let r := createOrAttach st sid
    let rest := runRequests n r.1 sid
    (rest.1, r.2 :: rest.2)

/-! ## Chat page event processing

From src/appandrunning/app/chat/[id]/page.tsx (the event-processing effect)
and src/unnamed/part_002 (`handleMessage`): each WebSocket message is
appended to `agentSession.events`; the page's effect, which runs once per
committed render with `agentSession.events` among its dependencies, returns
early when the array is empty and otherwise acts only on
`agentSession.events[agentSession.events.length - 1]`. State updates arriving
before the next render are batched, so a render (and hence one effect run)
can cover several appended events. -/

/-- One event as received on the session channel. -/
structure AgentEvent where
  event : String
  data : Option String
deriving DecidableEq, Repr

/-- The client-visible state: the received events array and the log of events
the effect has acted on, in order. -/
structure ChatClientState where
  events : List AgentEvent
  acted : List AgentEvent
deriving DecidableEq, Repr

/-- The ChatPage effect: `if (!agentSession.events.length) return;` then act
on `events[events.length - 1]` only. -/
def runEffect (s : ChatClientState) : ChatClientState :=
  match s.events.getLast? with
  | none => s
  | some e => { s with acted := s.acted ++ [e] }

/-- Deliver one render cycle's batch of messages: `handleMessage` appends
each to `events`, then the effect runs once on the committed state. -/
def deliverBatch (s : ChatClientState) (batch : List AgentEvent) : ChatClientState :=
  runEffect { s with events := s.events ++ batch }

/-- Run the client over a sequence of render cycles, each delivering a batch
of events received since the previous render. -/
def runClient (batches : List (List AgentEvent)) : ChatClientState :=
  batches.foldl deliverBatch ⟨[], []⟩

/-! ## sendPrompt

From src/unnamed/part_002 (`useAgentSession.ts` lines 51-70): `sendPrompt`
returns false when `wsRef.current` is absent or its `readyState` is not
`WebSocket.OPEN`; otherwise it sends one `JSON.stringify`-ed message
`{type: 'prompt', message: prompt, timestamp: new Date().toISOString()}` and
returns true. The `try/catch` around the send is modelled as the success
branch: per the WebSocket API, `send` throws only in the CONNECTING state,
and `JSON.stringify` of this plain object and `toISOString` are total, so on
an OPEN socket the catch arm is unreachable. -/

/-- `WebSocket.readyState` values. -/
inductive ReadyState where
  | CONNECTING
  | OPEN
  | CLOSING
  | CLOSED
deriving DecidableEq, Repr

/-- The message object built by `sendPrompt`. -/
structure PromptMessage where
  type : String
  message : String
  timestamp : String
deriving DecidableEq, Repr

/-- A WebSocket as `sendPrompt` sees it: its ready state and the log of
messages transmitted on it. -/
structure WSocket where
  readyState : ReadyState
  sent : List PromptMessage
deriving DecidableEq, Repr

/-- `sendPrompt(prompt)`: `wsRef.current` is the optional socket; `nowIso`
is `new Date().toISOString()`. Returns the boolean result and the socket
after the call. -/
def sendPrompt (ws : Option WSocket) (prompt : String) (nowIso : String) :
    Bool × Option WSocket :=
  match ws with
  | none => (false, none)
  | some sock =>
    if sock.readyState ≠ ReadyState.OPEN then (false, some sock)
    else
      (true, some { sock with
        sent := sock.sent ++ [{ type := "prompt", message := prompt, timestamp := nowIso }] })

end Spec2Proof

namespace Spec2Proof

/-! ## Theorems -/

theorem healthCheck_eq_receivedHttpResponse (p : ProbeOutcome) :
    healthCheck p = receivedHttpResponse p := by
  cases p <;> rfl

/-- C1: the readiness check reports `ready` exactly when some probe attempt
received any HTTP response (including an application-level error response such
as 404) from the expected port; a connection-refused/unreachable attempt never
passes a check; and the result is `timedOut` exactly when the bounded attempt
budget is exhausted with no response received. -/
theorem awaitReady_ready_iff_response (probes : List ProbeOutcome) :
    (awaitReady probes = .ready ↔ ∃ p ∈ probes, receivedHttpResponse p = true) ∧
    (awaitReady probes = .timedOut ↔ ∀ p ∈ probes, receivedHttpResponse p = false) ∧
    healthCheck (.httpError 404) = true ∧
    healthCheck .urlError = false ∧
    healthCheck .otherError = false := by
  refine ⟨?_, ?_, rfl, rfl, rfl⟩
  · induction probes with
    | nil => simp [awaitReady]
    | cons p rest ih =>
      simp only [awaitReady, healthCheck_eq_receivedHttpResponse]
      cases h : receivedHttpResponse p
      · simp [h, ih]
      · simp [h]
  · induction probes with
    | nil => simp [awaitReady]
    | cons p rest ih =>
      simp only [awaitReady, healthCheck_eq_receivedHttpResponse]
      cases h : receivedHttpResponse p
      · simp [h, ih]
      · simp [h]

/-- Witness for C1: on a probe run whose first attempt hits connection-refused
and whose second receives a 404 response, the supervisor reports `ready`;
on a run of only connection failures it reports `timedOut`. -/
theorem awaitReady_ready_iff_response_witness :
    (awaitReady [.urlError, .httpError 404] = .ready ↔
      ∃ p ∈ [ProbeOutcome.urlError, .httpError 404], receivedHttpResponse p = true) ∧
    awaitReady [.urlError, .httpError 404] = .ready ∧
    awaitReady [.urlError, .urlError, .urlError] = .timedOut :=
  ⟨(awaitReady_ready_iff_response [.urlError, .httpError 404]).1, by decide, by decide⟩

theorem closeN_attempts (s : ConnRefs) (n : Nat) :
    (closeN n (wsOnOpen s)).reconnectAttempts = n := by
  induction n with
  | zero => rfl
  | succ n ih => simp [closeN, wsOnClose, ih]

/-- Counterexample to C2: the delay before the 6th reconnection attempt is
16000 ms, not the 30000 ms that doubling-up-to-the-30s-cap prescribes
(the 5th delay is 16000 ms, below the cap, yet the 6th does not double:
the exponent is clamped at 4 so the 30000 ms cap is never reached). -/
theorem backoff_counterexample :
    (wsOnClose (closeN 5 (wsOnOpen ⟨7⟩))).2 = 16000 ∧
    backoffDelay 5 = 16000 ∧
    backoffDelay 6 = 16000 ∧
    specBackoffDelay 6 = 30000 ∧
    backoffDelay 6 ≠ specBackoffDelay 6 := by
  refine ⟨?_, by decide, by decide, by decide, by decide⟩
  have h : (closeN 5 (wsOnOpen ⟨7⟩)).reconnectAttempts = 5 := closeN_attempts ⟨7⟩ 5
  simp [wsOnClose, h]
  decide

/-- C2 (amended): the delay before the n-th consecutive reconnection attempt
is 1 second for the first attempt and doubles on each successive attempt only
while below 16 seconds (the exponent is clamped at 4); from the 5th attempt on
it stays at 16 seconds, so it never exceeds the configured 30-second cap
(which is never actually reached); the attempt counter used to compute the
delay is reset to zero on every successful (re)connection. -/
theorem backoff_amended (s : ConnRefs) (n : Nat) (hn : 1 ≤ n) :
    (wsOnClose (closeN (n - 1) (wsOnOpen s))).2 = backoffDelay n ∧
    backoffDelay 1 = 1000 ∧
    (n ≤ 4 → backoffDelay (n + 1) = 2 * backoffDelay n) ∧
    (5 ≤ n → backoffDelay n = 16000) ∧
    backoffDelay n ≤ 30000 ∧
    (wsOnOpen s).reconnectAttempts = 0 := by
  refine ⟨?_, by decide, ?_, ?_, ?_, rfl⟩
  · have h := closeN_attempts s (n - 1)
    have h1 : n - 1 + 1 = n := by omega
    simp [wsOnClose, h, h1]
  · intro h4
    interval_cases n <;> decide
  · intro h5
    have hm : min (n - 1) 4 = 4 := by omega
    have hle : (16000 : Nat) ≤ 30000 := by decide
    simp [backoffDelay, hm]
  · exact min_le_right _ _

/-- Witness for C2 (amended), at the 3rd consecutive disconnect after a
successful connection: the computed delay is 4000 ms. -/
theorem backoff_amended_witness :
    1 ≤ 3 ∧ (wsOnClose (closeN (3 - 1) (wsOnOpen ⟨0⟩))).2 = backoffDelay 3 ∧
    backoffDelay 3 = 4000 :=
  ⟨by decide, (backoff_amended ⟨0⟩ 3 (by decide)).1, by decide⟩

theorem dropTagGo_length : ∀ l l', dropTagGo l = some l' → l'.length < l.length := by
  intro l
  induction l with
  | nil => intro l' h; simp [dropTagGo] at h
  | cons c rest ih =>
    intro l' h
    rw [dropTagGo] at h
    by_cases hc : c = '>'
    · rw [if_pos hc] at h
      obtain rfl : rest = l' := Option.some.inj h
      simp only [List.length_cons]
      omega
    · rw [if_neg hc] at h
      have := ih l' h
      simp only [List.length_cons]
      omega

theorem dropTag_length : ∀ l l', dropTag l = some l' → l'.length < l.length := by
  intro l l' h
  cases l with
  | nil => simp [dropTag] at h
  | cons c rest =>
    rw [dropTag] at h
    by_cases hc : c = '>'
    · rw [if_pos hc] at h
      exact absurd h (by simp)
    · rw [if_neg hc] at h
      have := dropTagGo_length rest l' h
      simp only [List.length_cons]
      omega

end Spec2Proof

namespace Spec2Proof

theorem sectionsLoop_eq : ∀ (ms : List RawMatch) (acc : List PageSection),
    acc.length < 20 →
    sectionsLoop ms acc = acc ++ (ms.take (20 - acc.length)).map mkSection := by
  intro ms
  induction ms with
  | nil => intro acc h; simp [sectionsLoop]
  | cons m rest ih =>
    intro acc h
    rw [sectionsLoop]
    by_cases h20 : (acc ++ [mkSection m]).length ≥ 20
    · rw [if_pos h20]
      have hlen : acc.length = 19 := by
        simp only [List.length_append, List.length_singleton] at h20
        omega
      have h1 : 20 - acc.length = 1 := by omega
      rw [h1]
      simp [List.take_succ_cons]
    · rw [if_neg h20]
      have hlt : (acc ++ [mkSection m]).length < 20 := by omega
      rw [ih _ hlt]
      have h2 : (acc ++ [mkSection m]).length = acc.length + 1 := by simp
      have h3 : 20 - acc.length = (20 - (acc.length + 1)) + 1 := by omega
      rw [h2, h3]
      simp [List.take_succ_cons]

theorem buildSections_eq (ms : List RawMatch) :
    buildSections ms = (ms.take 20).map mkSection := by
  rw [buildSections, sectionsLoop_eq ms [] (by simp)]
  simp

theorem buildSections_length_le (ms : List RawMatch) :
    (buildSections ms).length ≤ 20 := by
  rw [buildSections_eq]
  simp only [List.length_map, List.length_take]
  omega

theorem scanLoop_eq : ∀ (fs : List HtmlFile) (acc : List PageInfo),
    scanLoop fs acc = acc ++ fs.filterMap processFile := by
  intro fs
  induction fs with
  | nil => intro acc; simp [scanLoop]
  | cons f rest ih =>
    intro acc
    cases hp : f.parse with
    | error e => simp [scanLoop, hp, processFile, List.filterMap_cons, ih]
    | ok c => simp [scanLoop, hp, processFile, List.filterMap_cons, ih]

theorem length_filterMap_processFile : ∀ fs : List HtmlFile,
    (fs.filterMap processFile).length = (fs.filter parseOk).length := by
  intro fs
  induction fs with
  | nil => rfl
  | cons f rest ih =>
    cases hp : f.parse with
    | error e => simp [List.filterMap_cons, List.filter_cons, processFile, parseOk, hp, ih]
    | ok c => simp [List.filterMap_cons, List.filter_cons, processFile, parseOk, hp, ih]

theorem sum_sections_filterMap : ∀ fs : List HtmlFile,
    (((fs.filterMap processFile).map (fun p => p.sections.length)).sum
      = ((fs.filter parseOk).map pageSectionCount).sum) := by
  intro fs
  induction fs with
  | nil => rfl
  | cons f rest ih =>
    cases hp : f.parse with
    | error e =>
      simp [List.filterMap_cons, List.filter_cons, processFile, parseOk, hp, ih]
    | ok c =>
      simp [List.filterMap_cons, List.filter_cons, processFile, parseOk,
        pageSectionCount, hp, mkPage, ih]

end Spec2Proof

namespace Spec2Proof

/-- C3: for every file the scan processes successfully, the page title is the
(stripped) content of the title tag when the title regex matched, else the
file's relative path; the sections are exactly the first (at most 20) id
matches, so no page carries more than 20 sections; and each section's display
name is the trimmed, whitespace-collapsed, tag-stripped text content of its
element, truncated to 50 characters plus an ellipsis marker when longer than
50, falling back to the raw id when the element has no usable text. -/
theorem scan_page_fields (f : HtmlFile) (c : ParsedHtml) (pg : PageInfo)
    (hok : f.parse = .ok c) (hpg : processFile f = some pg) :
    (∀ t, c.titleGroup = some t → pg.title = ⟨pyStrip t.data⟩) ∧
    (c.titleGroup = none → pg.title = f.relPath) ∧
    pg.sections = (c.idMatches.take 20).map mkSection ∧
    pg.sections.length ≤ 20 ∧
    (∀ m : RawMatch,
      (mkSection m).id = m.id ∧
      (mkSection m).element = m.tag ∧
      (displayText m.inner.data = [] → (mkSection m).name = m.id) ∧
      (displayText m.inner.data ≠ [] → (displayText m.inner.data).length ≤ 50 →
        (mkSection m).name = ⟨displayText m.inner.data⟩) ∧
      ((displayText m.inner.data).length > 50 →
        (mkSection m).name = ⟨(displayText m.inner.data).take 50 ++ "...".data⟩)) := by
  have hpg' : pg = mkPage f c := by
    simp only [processFile, hok] at hpg
    exact (Option.some.inj hpg).symm
  subst hpg'
  refine ⟨?_, ?_, ?_, ?_, ?_⟩
  · intro t ht; simp [mkPage, ht]
  · intro ht; simp [mkPage, ht]
  · simp [mkPage, buildSections_eq]
  · simpa [mkPage] using buildSections_length_le c.idMatches
  · intro m
    refine ⟨rfl, rfl, ?_, ?_, ?_⟩
    · intro h0
      simp [mkSection, h0]
    · intro hne hle
      have hgt : ¬ (displayText m.inner.data).length > 50 := by omega
      simp [mkSection, hgt, hne]
    · intro hgt
      have hne : (displayText m.inner.data).take 50 ++ "...".data ≠ [] := by simp
      simp [mkSection, hgt, hne]

/-- Witness for C3: a file whose title has surrounding whitespace and whose
single section element has markup and whitespace inside; the scan yields the
cleaned title and display name. -/
theorem scan_page_fields_witness :
    HtmlFile.parse ⟨"home.html", false,
        .ok ⟨some "  My Title ", [⟨"h1", "hero", "  Hello   <b>World</b> "⟩]⟩⟩ =
      .ok ⟨some "  My Title ", [⟨"h1", "hero", "  Hello   <b>World</b> "⟩]⟩ ∧
    processFile ⟨"home.html", false,
        .ok ⟨some "  My Title ", [⟨"h1", "hero", "  Hello   <b>World</b> "⟩]⟩⟩ =
      some ⟨"home.html", "My Title", "/home.html", [⟨"hero", "Hello World", "h1"⟩]⟩ ∧
    (some ⟨"hero", "Hello World", "h1"⟩ :
        Option PageSection).any (fun s => s.name == "Hello World") = true ∧
    ([⟨"hero", "Hello World", "h1"⟩] : List PageSection).length ≤ 20 :=
  ⟨rfl, by decide, by decide,
    by
      have h := scan_page_fields ⟨"home.html", false,
          .ok ⟨some "  My Title ", [⟨"h1", "hero", "  Hello   <b>World</b> "⟩]⟩⟩
        ⟨some "  My Title ", [⟨"h1", "hero", "  Hello   <b>World</b> "⟩]⟩
        ⟨"home.html", "My Title", "/home.html", [⟨"hero", "Hello World", "h1"⟩]⟩
        rfl (by decide)
      exact h.2.2.2.1⟩

end Spec2Proof

namespace Spec2Proof

/-- C4: the scan is a pure function of the file-tree snapshot (scanning the
same snapshot twice yields the identical Page Index); the result is sorted by
the key `(path != 'index.html', path)`; hence the page whose relative path is
`index.html` is placed first whenever such a page is present, and the pages
whose path is not `index.html` appear ordered by relative path. -/
theorem scan_entry_first_and_sorted (ws : List HtmlFile) :
    scan_workspace_pages ws = scan_workspace_pages ws ∧
    ((∃ p ∈ (scan_workspace_pages ws).pages, p.path = "index.html") →
      ∃ p, (scan_workspace_pages ws).pages.head? = some p ∧ p.path = "index.html") ∧
    List.Sorted pageLe (scan_workspace_pages ws).pages ∧
    List.Sorted (fun p q : PageInfo => p.path ≤ q.path)
      ((scan_workspace_pages ws).pages.filter (fun p => p.path != "index.html")) := by
  have hsorted : List.Sorted pageLe (scan_workspace_pages ws).pages := by
    simp only [scan_workspace_pages, sortPages]
    exact List.sorted_insertionSort pageLe _
  refine ⟨rfl, ?_, hsorted, ?_⟩
  · rintro ⟨p, hpmem, hppath⟩
    cases hpp : (scan_workspace_pages ws).pages with
    | nil => rw [hpp] at hpmem; simp at hpmem
    | cons x rest =>
      refine ⟨x, rfl, ?_⟩
      rw [hpp] at hpmem hsorted
      rcases List.mem_cons.mp hpmem with rfl | hrest
      · exact hppath
      · have hxle : pageLe x p := (List.sorted_cons.mp hsorted).1 p hrest
        have hpfalse : notIndex p = false := by simp [notIndex, hppath]
        rcases hxle with ⟨hxf, hpt⟩ | ⟨hxq, _⟩
        · rw [hpfalse] at hpt
          exact absurd hpt (by simp)
        · have hxf : notIndex x = false := by rw [hxq, hpfalse]
          simpa [notIndex] using hxf
  · have hpw : List.Pairwise pageLe (scan_workspace_pages ws).pages := hsorted
    refine (hpw.filter (fun p => p.path != "index.html")).imp_of_mem ?_
    intro a b ha hb hab
    have ha' : a.path ≠ "index.html" := by
      have := (List.mem_filter.mp ha).2
      simpa using this
    rcases hab with ⟨haf, _⟩ | ⟨_, hle⟩
    · simp only [notIndex] at haf
      simp [ha'] at haf
    · exact hle

/-- Witness for C4: a two-file snapshot containing `index.html`; the sorted
pages list puts `index.html` first even though "about.html" sorts before it
alphabetically. -/
theorem scan_entry_first_and_sorted_witness :
    (∃ p ∈ (scan_workspace_pages
        [⟨"about.html", false, .ok ⟨some "About", []⟩⟩,
         ⟨"index.html", false, .ok ⟨some "Home", []⟩⟩]).pages, p.path = "index.html") ∧
    (∃ p, (scan_workspace_pages
        [⟨"about.html", false, .ok ⟨some "About", []⟩⟩,
         ⟨"index.html", false, .ok ⟨some "Home", []⟩⟩]).pages.head? = some p ∧
      p.path = "index.html") := by
  have hx : ∃ p ∈ (scan_workspace_pages
      [⟨"about.html", false, .ok ⟨some "About", []⟩⟩,
       ⟨"index.html", false, .ok ⟨some "Home", []⟩⟩]).pages, p.path = "index.html" := by
    refine ⟨⟨"index.html", "Home", "/", []⟩, ?_, rfl⟩
    have hp : (scan_workspace_pages
        [⟨"about.html", false, .ok ⟨some "About", []⟩⟩,
         ⟨"index.html", false, .ok ⟨some "Home", []⟩⟩]).pages
        = sortPages (scanLoop (htmlFiles
            [⟨"about.html", false, .ok ⟨some "About", []⟩⟩,
             ⟨"index.html", false, .ok ⟨some "Home", []⟩⟩]) []) := rfl
    rw [hp, sortPages]
    refine (List.perm_insertionSort pageLe _).mem_iff.mpr ?_
    decide
  exact ⟨hx,
    (scan_entry_first_and_sorted
      [⟨"about.html", false, .ok ⟨some "About", []⟩⟩,
       ⟨"index.html", false, .ok ⟨some "Home", []⟩⟩]).2.1 hx⟩

/-- C7: the scan never aborts on a malformed file: its pages are exactly the
sorted successfully-processed files (a file that raised is excluded and the
rest are still processed), the page count equals the count of files processed
without an exception, and a snapshot all of whose files are malformed still
yields a complete result with zero pages. -/
theorem scan_skips_malformed (ws : List HtmlFile) :
    (scan_workspace_pages ws).pages = sortPages ((htmlFiles ws).filterMap processFile) ∧
    (scan_workspace_pages ws).total_pages = ((htmlFiles ws).filter parseOk).length ∧
    (∀ f, parseOk f = false → processFile f = none) ∧
    ((∀ f ∈ ws, parseOk f = false) →
      (scan_workspace_pages ws).pages = [] ∧ (scan_workspace_pages ws).total_pages = 0) := by
  have hL : scanLoop (htmlFiles ws) [] = (htmlFiles ws).filterMap processFile := by
    rw [scanLoop_eq]; simp
  refine ⟨?_, ?_, ?_, ?_⟩
  · simp only [scan_workspace_pages, hL]
  · simp only [scan_workspace_pages, hL, sortPages]
    rw [(List.perm_insertionSort pageLe _).length_eq]
    exact length_filterMap_processFile _
  · intro f hf
    cases hp : f.parse with
    | ok c => simp [parseOk, hp] at hf
    | error e => simp [processFile, hp]
  · intro hall
    have hnil : (htmlFiles ws).filterMap processFile = [] := by
      rw [List.filterMap_eq_nil_iff]
      intro f hf
      have hfws : f ∈ ws := by
        rcases List.mem_append.mp hf with h | h
        · exact (List.mem_filter.mp h).1
        · exact h
      have hfo := hall f hfws
      cases hp : f.parse with
      | ok c => simp [parseOk, hp] at hfo
      | error e => simp [processFile, hp]
    constructor
    · simp only [scan_workspace_pages, hL, hnil, sortPages]
      rfl
    · simp only [scan_workspace_pages, hL, hnil, sortPages]
      rfl

/-- Witness for C7: a snapshot with one unreadable file and one good file
still scans; the unreadable one is excluded, the good one is kept; a snapshot
of only unreadable files yields the valid zero-page result. -/
theorem scan_skips_malformed_witness :
    (∀ f ∈ [(⟨"bad.html", false, .error "UnicodeDecodeError"⟩ : HtmlFile)],
      parseOk f = false) ∧
    (scan_workspace_pages [(⟨"bad.html", false, .error "UnicodeDecodeError"⟩ : HtmlFile)]).pages = [] ∧
    (scan_workspace_pages [(⟨"bad.html", false, .error "UnicodeDecodeError"⟩ : HtmlFile)]).total_pages = 0 ∧
    (scan_workspace_pages
      [⟨"bad.html", false, .error "UnicodeDecodeError"⟩,
       ⟨"ok.html", false, .ok ⟨some "Ok", []⟩⟩]).total_pages = 1 :=
  ⟨by decide,
    ((scan_skips_malformed [(⟨"bad.html", false, .error "UnicodeDecodeError"⟩ : HtmlFile)]).2.2.2
      (by decide)).1,
    ((scan_skips_malformed [(⟨"bad.html", false, .error "UnicodeDecodeError"⟩ : HtmlFile)]).2.2.2
      (by decide)).2,
    by decide⟩

/-- C9: a successfully parsed HTML file sitting directly in the workspace
root is matched by both globs, so the pages list carries (at least) two
entries with its relative path, and the totals count every root file twice:
total_pages adds the root-file count to the all-file count, and
total_sections adds the root files' section counts to the all-file sum. -/
theorem root_html_double_counted (ws : List HtmlFile) (f : HtmlFile) (c : ParsedHtml)
    (hmem : f ∈ ws) (hroot : f.atRoot = true) (hok : f.parse = .ok c) :
    2 ≤ (scan_workspace_pages ws).pages.countP (fun p => p.path == f.relPath) ∧
    (scan_workspace_pages ws).total_pages
      = ((ws.filter (fun g => g.atRoot)).filter parseOk).length
        + (ws.filter parseOk).length ∧
    (scan_workspace_pages ws).total_sections
      = (((ws.filter (fun g => g.atRoot)).filter parseOk).map pageSectionCount).sum
        + ((ws.filter parseOk).map pageSectionCount).sum := by
  have hL : scanLoop (htmlFiles ws) [] = (htmlFiles ws).filterMap processFile := by
    rw [scanLoop_eq]; simp
  have hperm : (scan_workspace_pages ws).pages.Perm ((htmlFiles ws).filterMap processFile) := by
    simp only [scan_workspace_pages, hL, sortPages]
    exact List.perm_insertionSort pageLe _
  refine ⟨?_, ?_, ?_⟩
  · rw [hperm.countP_eq, htmlFiles, List.filterMap_append, List.countP_append]
    have h1 : 0 < (List.filterMap processFile
        (ws.filter (fun g => g.atRoot))).countP (fun p => p.path == f.relPath) := by
      rw [List.countP_pos_iff]
      refine ⟨mkPage f c, ?_, ?_⟩
      · exact List.mem_filterMap.mpr
          ⟨f, List.mem_filter.mpr ⟨hmem, hroot⟩, by simp [processFile, hok]⟩
      · simp [mkPage]
    have h2 : 0 < (List.filterMap processFile ws).countP
        (fun p => p.path == f.relPath) := by
      rw [List.countP_pos_iff]
      exact ⟨mkPage f c,
        List.mem_filterMap.mpr ⟨f, hmem, by simp [processFile, hok]⟩, by simp [mkPage]⟩
    omega
  · have hdef : (scan_workspace_pages ws).total_pages
        = (scan_workspace_pages ws).pages.length := rfl
    rw [hdef, hperm.length_eq, htmlFiles, List.filterMap_append, List.length_append,
      length_filterMap_processFile, length_filterMap_processFile]
  · have hdef : (scan_workspace_pages ws).total_sections
        = ((scan_workspace_pages ws).pages.map (fun p => p.sections.length)).sum := rfl
    rw [hdef, (hperm.map (fun p => p.sections.length)).sum_eq, htmlFiles,
      List.filterMap_append, List.map_append, List.sum_append,
      sum_sections_filterMap, sum_sections_filterMap]

/-- Witness for C9: a workspace whose root directly contains `index.html`
(one section): the scan lists it twice and counts 2 pages and 2 sections. -/
theorem root_html_double_counted_witness :
    ((⟨"index.html", true, .ok ⟨some "Home", [⟨"h1", "hero", "Hi"⟩]⟩⟩ : HtmlFile)
        ∈ [(⟨"index.html", true, .ok ⟨some "Home", [⟨"h1", "hero", "Hi"⟩]⟩⟩ : HtmlFile)]) ∧
    2 ≤ (scan_workspace_pages
        [(⟨"index.html", true, .ok ⟨some "Home", [⟨"h1", "hero", "Hi"⟩]⟩⟩ : HtmlFile)]).pages.countP
      (fun p => p.path == "index.html") ∧
    (scan_workspace_pages
        [(⟨"index.html", true, .ok ⟨some "Home", [⟨"h1", "hero", "Hi"⟩]⟩⟩ : HtmlFile)]).total_pages = 2 ∧
    (scan_workspace_pages
        [(⟨"index.html", true, .ok ⟨some "Home", [⟨"h1", "hero", "Hi"⟩]⟩⟩ : HtmlFile)]).total_sections = 2 :=
  ⟨by decide,
    (root_html_double_counted
      [(⟨"index.html", true, .ok ⟨some "Home", [⟨"h1", "hero", "Hi"⟩]⟩⟩ : HtmlFile)]
      ⟨"index.html", true, .ok ⟨some "Home", [⟨"h1", "hero", "Hi"⟩]⟩⟩
      ⟨some "Home", [⟨"h1", "hero", "Hi"⟩]⟩
      (by decide) rfl rfl).1,
    ((root_html_double_counted
      [(⟨"index.html", true, .ok ⟨some "Home", [⟨"h1", "hero", "Hi"⟩]⟩⟩ : HtmlFile)]
      ⟨"index.html", true, .ok ⟨some "Home", [⟨"h1", "hero", "Hi"⟩]⟩⟩
      ⟨some "Home", [⟨"h1", "hero", "Hi"⟩]⟩
      (by decide) rfl rfl).2.1).trans (by decide),
    ((root_html_double_counted
      [(⟨"index.html", true, .ok ⟨some "Home", [⟨"h1", "hero", "Hi"⟩]⟩⟩ : HtmlFile)]
      ⟨"index.html", true, .ok ⟨some "Home", [⟨"h1", "hero", "Hi"⟩]⟩⟩
      ⟨some "Home", [⟨"h1", "hero", "Hi"⟩]⟩
      (by decide) rfl rfl).2.2).trans (by decide)⟩

end Spec2Proof

namespace Spec2Proof

theorem applyRX_idem (d : Bool) (p : FilePerm) :
    applyRX d (applyRX d p) = applyRX d p := by
  obtain ⟨r1, w1, x1, r2, w2, x2, r3, w3, x3⟩ := p
  cases d <;> cases x1 <;> cases x2 <;> cases x3 <;> rfl

mutual

theorem chmodRX_idem : (t : FsTree) → chmodRX (chmodRX t) = chmodRX t
  | .file p => by rw [chmodRX, chmodRX, applyRX_idem]
  | .dir p cs => by rw [chmodRX, chmodRX, applyRX_idem, chmodRXForest_idem cs]

theorem chmodRXForest_idem : (f : Forest) → chmodRXForest (chmodRXForest f) = chmodRXForest f
  | .nil => by simp only [chmodRXForest]
  | .cons t rest => by
    rw [chmodRXForest, chmodRXForest, chmodRX_idem t, chmodRXForest_idem rest]

end

/-- C6: the permission normalization `chmod -R a+rX` (read for all roles on
every entry, execute for all roles on directories — and on files that already
carry an execute bit — but not on plain regular files) is idempotent: for
every initial assignment of permission bits over a file tree, applying the
fix twice yields exactly the bits of applying it once. -/
theorem permission_fix_idempotent (t : FsTree) :
    chmodRX (chmodRX t) = chmodRX t ∧
    (∀ (d : Bool) (p : FilePerm), applyRX d (applyRX d p) = applyRX d p) :=
  ⟨chmodRX_idem t, applyRX_idem⟩

end Spec2Proof

namespace Spec2Proof

theorem runRequests_attached : ∀ (n : Nat) (st : ManagerState) (sid : String)
    (ph : SessionPhase), lookupSession st sid = some ph →
    runRequests n st sid = (st, List.replicate n sid) := by
  intro n
  induction n with
  | zero => intro st sid ph h; simp [runRequests]
  | succ n ih =>
    intro st sid ph h
    simp only [runRequests, createOrAttach, h]
    rw [ih st sid ph h]
    simp [List.replicate_succ]

/-- C5: for every concurrency level N ≥ 2, N simultaneous `createOrAttach`
requests with the same fresh session id — an arbitrary interleaving of N
atomic check-and-create steps — spawn exactly one backing worker, and every
one of the N callers receives the same session id. -/
theorem createOrAttach_no_duplicates (st : ManagerState) (sid : String) (n : Nat)
    (hn : 2 ≤ n) (hfresh : lookupSession st sid = none)
    (hspawn : st.spawns.count sid = 0) :
    (runRequests n st sid).1.spawns.count sid = 1 ∧
    (runRequests n st sid).2 = List.replicate n sid := by
  obtain ⟨m, rfl⟩ : ∃ m, n = m + 1 := ⟨n - 1, by omega⟩
  simp only [runRequests, createOrAttach, hfresh]
  have hlook : lookupSession
      { sessions := (sid, SessionPhase.initializing) :: st.sessions,
        spawns := st.spawns ++ [sid] } sid = some .initializing := by
    simp [lookupSession, List.find?]
  rw [runRequests_attached m _ sid .initializing hlook]
  constructor
  · simp [List.count_append, hspawn]
  · simp [List.replicate_succ]

/-- Witness for C5: three concurrent requests for fresh id "s1" on an empty
registry spawn one worker and all three callers get "s1". -/
theorem createOrAttach_no_duplicates_witness :
    2 ≤ 3 ∧ lookupSession ⟨[], []⟩ "s1" = none ∧
    (⟨[], []⟩ : ManagerState).spawns.count "s1" = 0 ∧
    (runRequests 3 ⟨[], []⟩ "s1").1.spawns.count "s1" = 1 ∧
    (runRequests 3 ⟨[], []⟩ "s1").2 = ["s1", "s1", "s1"] :=
  ⟨by decide, rfl, by decide,
    (createOrAttach_no_duplicates ⟨[], []⟩ "s1" 3 (by decide) rfl (by decide)).1,
    ((createOrAttach_no_duplicates ⟨[], []⟩ "s1" 3 (by decide) rfl (by decide)).2).trans
      (by decide)⟩

/-- Counterexample to C8: when two events arrive in one render cycle (React
batches the two `handleMessage` state updates), the effect — which reads only
`events[events.length - 1]` — acts once on the later event; the earlier
`claude_text` event is received but never acted on, so the client does not
act on each received event exactly once. -/
theorem event_skipping_counterexample :
    (runClient [[⟨"claude_text", some "Hello"⟩, ⟨"turn_complete", none⟩]]).events
      = [⟨"claude_text", some "Hello"⟩, ⟨"turn_complete", none⟩] ∧
    (⟨"claude_text", some "Hello"⟩ : AgentEvent)
      ∈ (runClient [[⟨"claude_text", some "Hello"⟩, ⟨"turn_complete", none⟩]]).events ∧
    (runClient [[⟨"claude_text", some "Hello"⟩, ⟨"turn_complete", none⟩]]).acted
      = [⟨"turn_complete", none⟩] ∧
    (⟨"claude_text", some "Hello"⟩ : AgentEvent)
      ∉ (runClient [[⟨"claude_text", some "Hello"⟩, ⟨"turn_complete", none⟩]]).acted :=
  ⟨by decide, by decide, by decide, by decide⟩

theorem deliverBatch_events (s : ChatClientState) (b : List AgentEvent) :
    (deliverBatch s b).events = s.events ++ b := by
  simp only [deliverBatch, runEffect]
  split <;> rfl

theorem deliverBatch_acted (s : ChatClientState) (b : List AgentEvent) (e : AgentEvent)
    (hb : b.getLast? = some e) :
    (deliverBatch s b).acted = s.acted ++ [e] := by
  have h : (s.events ++ b).getLast? = some e := by
    rw [List.getLast?_append, hb]
    rfl
  simp only [deliverBatch, runEffect, h]

theorem runClient_foldl : ∀ (batches : List (List AgentEvent)) (s : ChatClientState),
    (∀ b ∈ batches, b ≠ []) →
    (batches.foldl deliverBatch s).events = s.events ++ batches.flatten ∧
    (batches.foldl deliverBatch s).acted = s.acted ++ batches.filterMap List.getLast? := by
  intro batches
  induction batches with
  | nil => intro s h; simp
  | cons b rest ih =>
    intro s hne
    have hb : b ≠ [] := hne b (List.mem_cons_self b rest)
    obtain ⟨e, he⟩ : ∃ e, b.getLast? = some e :=
      Option.isSome_iff_exists.mp (List.getLast?_isSome.mpr hb)
    have hrest : ∀ x ∈ rest, x ≠ [] := fun x hx => hne x (List.mem_cons_of_mem b hx)
    obtain ⟨ih1, ih2⟩ := ih (deliverBatch s b) hrest
    simp only [List.foldl_cons]
    refine ⟨?_, ?_⟩
    · rw [ih1, deliverBatch_events, List.flatten_cons, List.append_assoc]
    · rw [ih2, deliverBatch_acted s b e he, List.filterMap_cons, he, List.append_assoc]
      rfl

theorem filterMap_getLast?_sublist_flatten : ∀ (batches : List (List AgentEvent)),
    List.Sublist (batches.filterMap List.getLast?) batches.flatten := by
  intro batches
  induction batches with
  | nil => simp
  | cons b rest ih =>
    cases hb : b.getLast? with
    | none =>
      simp only [List.filterMap_cons, hb, List.flatten_cons]
      exact ih.trans (List.sublist_append_right b rest.flatten)
    | some e =>
      simp only [List.filterMap_cons, hb, List.flatten_cons]
      exact List.Sublist.append (List.singleton_sublist.mpr (List.mem_of_mem_getLast? hb)) ih

/-- C8 (amended): the client acts, per render cycle, only on the most recent
received event: its received array is the concatenation of the delivered
batches, the events acted on are exactly the last event of each batch, and
the acted-on sequence is a subsequence of the received sequence (so events
are never reordered or handled before an earlier handled one) — but events
that are not the last of their render cycle's batch are never acted on. -/
theorem event_processing_amended (batches : List (List AgentEvent))
    (hne : ∀ b ∈ batches, b ≠ []) :
    (runClient batches).events = batches.flatten ∧
    (runClient batches).acted = batches.filterMap List.getLast? ∧
    List.Sublist (runClient batches).acted (runClient batches).events := by
  obtain ⟨h1, h2⟩ := runClient_foldl batches ⟨[], []⟩ hne
  have he : (runClient batches).events = batches.flatten := by simpa [runClient] using h1
  have ha : (runClient batches).acted = batches.filterMap List.getLast? := by
    simpa [runClient] using h2
  refine ⟨he, ha, ?_⟩
  rw [he, ha]
  exact filterMap_getLast?_sublist_flatten batches

/-- Witness for C8 (amended): two render cycles, the first delivering two
events and the second one event; the client acts exactly on the last event
of each cycle, in order. -/
theorem event_processing_amended_witness :
    (∀ b ∈ [[(⟨"claude_text", some "a"⟩ : AgentEvent), ⟨"turn_complete", none⟩],
            [(⟨"dev_server_started", some "url"⟩ : AgentEvent)]], b ≠ []) ∧
    (runClient [[⟨"claude_text", some "a"⟩, ⟨"turn_complete", none⟩],
                [⟨"dev_server_started", some "url"⟩]]).acted
      = [⟨"turn_complete", none⟩, ⟨"dev_server_started", some "url"⟩] :=
  ⟨by decide,
    ((event_processing_amended
        [[⟨"claude_text", some "a"⟩, ⟨"turn_complete", none⟩],
         [⟨"dev_server_started", some "url"⟩]] (by decide)).2.1).trans (by decide)⟩

/-- C10: `sendPrompt` returns false and transmits nothing when the socket is
absent or not OPEN; on an OPEN socket it transmits exactly one message of
shape `{type: "prompt", message: <prompt>, timestamp: <ISO time>}` and
returns true; being a total function into Bool, it returns a boolean and
never throws to its caller in every case. -/
theorem sendPrompt_spec (ws : Option WSocket) (prompt nowIso : String) :
    ((sendPrompt ws prompt nowIso).1 = true ∨ (sendPrompt ws prompt nowIso).1 = false) ∧
    (ws = none → sendPrompt ws prompt nowIso = (false, none)) ∧
    (∀ sock, ws = some sock → sock.readyState ≠ ReadyState.OPEN →
      sendPrompt ws prompt nowIso = (false, some sock)) ∧
    (∀ sock, ws = some sock → sock.readyState = ReadyState.OPEN →
      (sendPrompt ws prompt nowIso).1 = true ∧
      (sendPrompt ws prompt nowIso).2
        = some { sock with sent := sock.sent
            ++ [{ type := "prompt", message := prompt, timestamp := nowIso }] }) := by
  refine ⟨?_, ?_, ?_, ?_⟩
  · cases (sendPrompt ws prompt nowIso).1 <;> simp
  · rintro rfl; rfl
  · rintro sock rfl hstate
    simp [sendPrompt, hstate]
  · rintro sock rfl hstate
    simp [sendPrompt, hstate]

/-- Witness for C10: on an OPEN socket, sending "add a contact page"
transmits the one prompt message and returns true; on a CLOSED socket and on
an absent socket it returns false. -/
theorem sendPrompt_spec_witness :
    (some (⟨ReadyState.OPEN, []⟩ : WSocket) = some ⟨ReadyState.OPEN, []⟩) ∧
    (⟨ReadyState.OPEN, ([] : List PromptMessage)⟩ : WSocket).readyState = ReadyState.OPEN ∧
    (sendPrompt (some ⟨ReadyState.OPEN, []⟩) "add a contact page"
      "2025-12-15T10:30:00.000Z").1 = true ∧
    (sendPrompt (some ⟨ReadyState.OPEN, []⟩) "add a contact page"
      "2025-12-15T10:30:00.000Z").2
      = some ⟨ReadyState.OPEN,
          [⟨"prompt", "add a contact page", "2025-12-15T10:30:00.000Z"⟩]⟩ ∧
    (sendPrompt (some ⟨ReadyState.CLOSED, []⟩) "x" "t").1 = false ∧
    (sendPrompt none "x" "t").1 = false :=
  ⟨rfl, rfl,
    ((sendPrompt_spec (some ⟨ReadyState.OPEN, []⟩) "add a contact page"
      "2025-12-15T10:30:00.000Z").2.2.2 ⟨ReadyState.OPEN, []⟩ rfl rfl).1,
    ((sendPrompt_spec (some ⟨ReadyState.OPEN, []⟩) "add a contact page"
      "2025-12-15T10:30:00.000Z").2.2.2 ⟨ReadyState.OPEN, []⟩ rfl rfl).2,
    by decide, rfl⟩

end Spec2Proof
